import Mathlib

/-!
Shallow embedding of the `qa_processor_plus` pipeline of the
`reddit_market_research` package, together with proofs settling the
stated properties of its filter, span extractor, classifiers, solution
extractor, cluster-quality metrics, insight-card generator and legacy
adapter.  Python strings are modelled as Lean `String`s (sequences of
code points), Python floats as exact rationals, Python dicts either as
structures with `Option` fields (when accessed through `.get` with a
default) or as key/value lists (when the set of keys is itself the
property of interest).

Rational arithmetic is expressed through the executable helpers `qAdd`,
`qMul`, `qDiv`, `qRound` (built on `Rat.divInt`, which the kernel
evaluates), each proved equal to the corresponding Mathlib operation.
-/

namespace PMTools

/-! ### Executable rational arithmetic -/

/-- Executable rational addition. -/
def qAdd (a b : ℚ) : ℚ := Rat.divInt (a.num * b.den + b.num * a.den) ((a.den : ℤ) * b.den)

/-- Executable rational multiplication. -/
def qMul (a b : ℚ) : ℚ := Rat.divInt (a.num * b.num) ((a.den : ℤ) * b.den)

/-- Executable rational division (`0` when the divisor is `0`, matching
the convention of `Rat.divInt`). -/
def qDiv (a b : ℚ) : ℚ := Rat.divInt (a.num * b.den) ((a.den : ℤ) * b.num)

/-- Executable round-half-up. -/
def qRound (q : ℚ) : ℤ := ⌊qAdd q (mkRat 1 2)⌋

/-! ### String utilities shared by the embedded modules -/

/-- Model of Python `str.lower`, character by character (all keyword
tables in the source are ASCII). -/
def lowerStr (s : String) : String := String.mk (s.toList.map Char.toLower)

/-- Contiguous-sublist test on character lists. -/
def containsSeq (needle : List Char) : List Char → Bool
  | [] => needle.isEmpty
  | c :: t => needle.isPrefixOf (c :: t) || containsSeq needle t

/-- Model of the Python substring test `needle in hay`. -/
def isSub (needle hay : String) : Bool := containsSeq needle.toList hay.toList

/-- Split a character list at every delimiter character, keeping empty
pieces, as Python `str.split(sep)` does. -/
def splitChars (p : Char → Bool) : List Char → List (List Char)
  | [] => [[]]
  | c :: cs =>
    match splitChars p cs with
    | [] => [[]]
    | w :: ws => if p c then [] :: w :: ws else (c :: w) :: ws

/-- Model of Python `len(s.split())`: number of maximal whitespace-free
words of `s`. -/
def wordCount (s : String) : Nat :=
  ((splitChars Char.isWhitespace s.toList).filter (fun w => !w.isEmpty)).length

/-- Model of Python `str.strip`: drop leading and trailing whitespace. -/
def trimChars (l : List Char) : List Char :=
  ((l.dropWhile Char.isWhitespace).reverse.dropWhile Char.isWhitespace).reverse

/-- `str.strip` on strings. -/
def sTrim (s : String) : String := String.mk (trimChars s.toList)

/-- Model of Python `round(x, 3)` on exact rationals.  Python rounds
half-to-even while `qRound` rounds half-up; the two differ only at exact
half-thousandths, on which no verified property depends. -/
def round3 (q : ℚ) : ℚ := Rat.divInt (qRound (qMul 1000 q)) 1000

/-! ### classifier.py — ProductAreaClassifier and JourneyStageClassifier -/

/-- `ProductAreaClassifier.PRODUCT_AREA_KEYWORDS`. -/
def PRODUCT_AREA_KEYWORDS : List (String × List String) :=
  [ ("deployment", ["deploy", "deployment", "release", "rollout", "production", "staging"]),
    ("reliability", ["crash", "down", "outage", "downtime", "error", "fail", "timeout"]),
    ("performance", ["slow", "lag", "latency", "performance", "throughput", "cpu", "memory"]),
    ("pricing_billing", ["price", "pricing", "billing", "cost", "subscription", "charge", "fee"]),
    ("data_management", ["data", "database", "backup", "recovery", "corruption", "loss"]),
    ("security", ["security", "auth", "permission", "encryption", "vulnerability", "breach"]),
    ("usability", ["ui", "ux", "confusing", "unclear", "interface", "workflow"]) ]

/-- `JourneyStageClassifier.STAGE_PRIORITY`. -/
def STAGE_PRIORITY : List String :=
  ["shipping", "scaling", "building", "first_use", "evaluation", "troubleshooting"]

/-- `JourneyStageClassifier.STAGE_KEYWORDS` (duplicate list entries kept
verbatim from the source). -/
def STAGE_KEYWORDS : List (String × List String) :=
  [ ("shipping", ["ship", "shipped", "delivery", "deliver", "arrival", "received", "arrived"]),
    ("scaling", ["scale", "scaling", "growth", "scale up", "handle load", "growth"]),
    ("building", ["build", "building", "develop", "developing", "implementation", "architect"]),
    ("first_use", ["first time", "getting started", "onboarding", "new user", "first run", "setup"]),
    ("evaluation", ["evaluate", "evaluate", "considering", "trying out", "test", "poc"]),
    ("troubleshooting", ["troubleshoot", "debug", "fix", "issue", "problem", "error"]) ]

/-- Number of keywords of `kws` occurring in the lowercased text;
duplicate entries count twice, as the generator sum in the source does. -/
def matchedCount (text : String) (kws : List String) : Nat :=
  kws.countP (fun kw => isSub kw (lowerStr text))

/-- Per-area score assigned by the loop of `ProductAreaClassifier.classify`:
zero when fewer than two keywords match, otherwise matched / total. -/
def paScore (text : String) (area : String) : ℚ :=
  match PRODUCT_AREA_KEYWORDS.lookup area with
  | some kws =>
    if matchedCount text kws < 2 then 0 else qDiv (matchedCount text kws : ℚ) (kws.length : ℚ)
  | none => 0

/-- Per-stage score assigned by the loop of `JourneyStageClassifier.classify`:
matched / total, with no minimum-match requirement. -/
def jsScore (text : String) (stage : String) : ℚ :=
  match STAGE_KEYWORDS.lookup stage with
  | some kws =>
    if kws.isEmpty then 0 else qDiv (matchedCount text kws : ℚ) (kws.length : ℚ)
  | none => 0

/-- The best-candidate selection loop shared by both classifiers: scan
candidates in order, replacing the current best only on a strictly
greater score (so the first candidate attaining the maximum wins). -/
def pickAux (score : String → ℚ) (best : Option String) (bestScore : ℚ) :
    List String → Option String × ℚ
  | [] => (best, bestScore)
  | x :: xs =>
    if bestScore < score x then pickAux score (some x) (score x) xs
    else pickAux score best bestScore xs

/-- `ProductAreaClassifier.classify` (the dict of scores is modelled by
the function `paScore text`; selection iterates the key order of the table). -/
def paClassify (minConfidence : ℚ) (text : String) : Option String × ℚ :=
  let r := pickAux (paScore text) none 0 (PRODUCT_AREA_KEYWORDS.map Prod.fst)
  if r.2 < minConfidence then (none, r.2) else (r.1, round3 r.2)

/-- `JourneyStageClassifier.classify` (selection iterates `STAGE_PRIORITY`). -/
def jsClassify (minConfidence : ℚ) (text : String) : Option String × ℚ :=
  let r := pickAux (jsScore text) none 0 STAGE_PRIORITY
  if r.2 < minConfidence then (none, r.2) else (r.1, round3 r.2)

/-- Default `min_product_area_confidence` (`0.3`). -/
def paDefaultMinConfidence : ℚ := mkRat 3 10

/-- Default `min_journey_stage_confidence` (`0.4`). -/
def jsDefaultMinConfidence : ℚ := mkRat 2 5

/-! ### filter.py — InputFilter -/

/-- The `_filter_metadata` map attached to a record. -/
structure FilterMeta where
  passed_upvotes : Bool
  passed_word_count : Bool
  passed_sentiment : Bool
  passed_category : Bool
  passed_all : Bool
deriving DecidableEq

/-- A QA record as consumed by `InputFilter.filter_objects`; `none`
models an absent dict key. -/
structure QARecord where
  upvotes : Option Int
  text : Option String
  sentiment : Option String
  category : Option String
  meta : Option FilterMeta
deriving DecidableEq

/-- Configuration of `InputFilter`. -/
structure FilterConfig where
  min_upvotes : Int
  min_word_count : Nat
  sentiment : List String
  categories : List String

/-- The defaults of `InputFilter.__init__`. -/
def defaultFilterConfig : FilterConfig :=
  ⟨5, 10, ["negative", "neutral"], ["Question", "Complaint", "Suggestion"]⟩

/-- The per-filter evaluation performed on each record inside
`InputFilter.filter_objects`, including the `.get` defaults. -/
def evalMeta (cfg : FilterConfig) (obj : QARecord) : FilterMeta :=
  let pu := decide (cfg.min_upvotes ≤ obj.upvotes.getD 0)
  let pw := decide (cfg.min_word_count ≤ wordCount (obj.text.getD ""))
  let ps := cfg.sentiment.contains (obj.sentiment.getD "neutral")
  let pc := cfg.categories.contains (obj.category.getD "Question")
  ⟨pu, pw, ps, pc, pu && pw && ps && pc⟩

/-- A record after the metadata map has been stored on it under the
key `_filter_metadata`. -/
def withMeta (cfg : FilterConfig) (obj : QARecord) : QARecord :=
  { obj with meta := some (evalMeta cfg obj) }

/-- The in-place effect of `filter_objects` on one evaluated record:
only records passing all filters receive the metadata map. -/
def annotateRecord (cfg : FilterConfig) (obj : QARecord) : QARecord :=
  if (evalMeta cfg obj).passed_all then withMeta cfg obj else obj

/-- `InputFilter.filter_objects`: the returned list. -/
def filterObjects (cfg : FilterConfig) : List QARecord → List QARecord
  | [] => []
  | o :: os =>
    if (evalMeta cfg o).passed_all then withMeta cfg o :: filterObjects cfg os
    else filterObjects cfg os

/-- The state of the input records after `filter_objects` evaluated each
of them (the Python function mutates objects in place). -/
def postState (cfg : FilterConfig) (objs : List QARecord) : List QARecord :=
  objs.map (annotateRecord cfg)

/-! ### cluster_metrics.py — ClusterQualityMetrics (silhouette guard) -/

/-- Non-noise labels: `labels[labels >= 0]`. -/
def validLabels (labels : List Int) : List Int := labels.filter (fun x => decide (0 ≤ x))

/-- `valid_mask.sum()`. -/
def numValidPoints (labels : List Int) : Nat := (validLabels labels).length

/-- `len(set(labels[valid_mask]))`. -/
def numDistinctClusters (labels : List Int) : Nat := (validLabels labels).dedup.length

/-- Number of non-noise clusters having at least two members. -/
def clustersWithAtLeastTwo (labels : List Int) : Nat :=
  ((validLabels labels).dedup.filter
    (fun c => decide (2 ≤ (validLabels labels).count c))).length

/-- Modelled from the documented contract of the external call
`sklearn.metrics.silhouette_score` (not part of this repository): it
raises `ValueError` unless `2 <= n_labels <= n_samples - 1`, and
otherwise returns a number — singleton clusters receive the conventional
score `0` rather than an error. -/
def sklearnSilhouetteDefined (labels : List Int) : Bool :=
  decide (2 ≤ numDistinctClusters labels) &&
    decide (numDistinctClusters labels + 1 ≤ numValidPoints labels)

/-- Whether `ClusterQualityMetrics.compute` fills in a (non-`None`)
silhouette score: the guard in the source (at least 4 non-noise points
and at least 2 distinct clusters) together with the library call not
raising (a raise is swallowed, leaving `None`). -/
def silhouetteComputed (labels : List Int) : Bool :=
  decide (4 ≤ numValidPoints labels) && decide (2 ≤ numDistinctClusters labels) &&
    sklearnSilhouetteDefined labels

/-! ### insight_generator.py — InsightCardGenerator -/

/-- An evidence span as read by `_calculate_severity` (field confidence,
default 0.5) and by the legacy adapter (field text, default empty). -/
structure EvSpan where
  text : Option String
  confidence : Option ℚ
deriving DecidableEq

/-- The Python sum of the confidence values of the spans, with 0.5
substituted for an absent confidence. -/
def sumConfidence (spans : List EvSpan) : ℚ :=
  spans.foldl (fun acc s => qAdd acc (s.confidence.getD (mkRat 1 2))) 0

/-- Mean of the retrieved confidences. -/
def avgConfidence (spans : List EvSpan) : ℚ :=
  qDiv (sumConfidence spans) (spans.length : ℚ)

/-- `InsightCardGenerator._calculate_severity`. -/
def calcSeverity (spans : List EvSpan) : String :=
  if spans.isEmpty then "low"
  else if 5 ≤ spans.length ∧ mkRat 3 5 < avgConfidence spans then "high"
  else if 3 ≤ spans.length ∨ mkRat 1 2 < avgConfidence spans then "medium"
  else "low"

/-- The insight-card record built by `generate_insight_card`. -/
structure InsightCard where
  label : String
  evidence : List EvSpan
  evidence_count : Nat
  product_area : Option String
  journey_stage : Option String
  severity : String
deriving DecidableEq

/-- `InsightCardGenerator.generate_insight_card`. -/
def generateInsightCard (label : String) (spans : List EvSpan)
    (product_area journey_stage : Option String) : InsightCard :=
  ⟨label, spans, spans.length, product_area, journey_stage, calcSeverity spans⟩

/-! ### legacy_adapter.py — LegacyAdapter -/

/-- An insight card as read by the adapter through `.get`; `none`
models an absent key. -/
structure CardRec where
  label : Option String
  evidence_count : Option Int
  severity : Option String
  product_area : Option String
  evidence : Option (List EvSpan)
deriving DecidableEq

/-- A record of the legacy `pain_points` schema. -/
structure LegacyPainPoint where
  pain_point : String
  frequency : Int
  intensity : Int
  category : String
  sentiment_impact : String
  examples : List String
  associated_solutions : List String
deriving DecidableEq

/-- The mapping dict of `_map_severity_to_intensity`. -/
def INTENSITY_MAPPING : List (String × Int) := [("low", 1), ("medium", 2), ("high", 3)]

/-- `LegacyAdapter._map_severity_to_intensity` (default `1`). -/
def mapSeverityToIntensity (severity : String) : Int :=
  (INTENSITY_MAPPING.lookup severity).getD 1

/-- `LegacyAdapter._extract_examples`: first three evidence texts, each
truncated to 100 characters. -/
def extractExamples (evidence : List EvSpan) : List String :=
  (evidence.take 3).map (fun e => String.mk ((e.text.getD "").toList.take 100))

/-- One converted pain point of `convert_to_legacy_pain_points`. -/
def toLegacyPainPoint (card : CardRec) : LegacyPainPoint :=
  { pain_point := card.label.getD ""
    frequency := card.evidence_count.getD 0
    intensity := mapSeverityToIntensity (card.severity.getD "low")
    category := card.product_area.getD "uncategorized"
    sentiment_impact := "negative"
    examples := extractExamples (card.evidence.getD [])
    associated_solutions := [] }

/-- The result dict of `convert_to_legacy_pain_points`. -/
structure LegacyOutput where
  pain_points : List LegacyPainPoint
  total_count : Nat
  format : String
deriving DecidableEq

/-- `LegacyAdapter.convert_to_legacy_pain_points`. -/
def convertToLegacyPainPoints (cards : List CardRec) : LegacyOutput :=
  ⟨cards.map toLegacyPainPoint, (cards.map toLegacyPainPoint).length, "legacy"⟩

/-! ### solution_extractor.py — SolutionExtractorV2 -/

/-- A Python dict value as stored in a Solution record. -/
inductive PyVal where
  | vStr : String → PyVal
  | vInt : Int → PyVal
  | vNone : PyVal
deriving DecidableEq

/-- Coerce an optional string field into a stored dict value. -/
def optStrVal : Option String → PyVal
  | some s => .vStr s
  | none => .vNone

/-- `SolutionExtractorV2.SOLUTION_KEYWORDS`. -/
def SOLUTION_KEYWORDS : List (String × List String) :=
  [ ("workaround", ["workaround", "work around", "temporary", "interim", "for now"]),
    ("implementation", ["implement", "implementation", "solution", "approach", "method"]),
    ("configuration", ["configure", "configuration", "setting", "parameter", "option"]),
    ("external_tool", ["tool", "library", "plugin", "package", "extension", "service"]),
    ("best_practice", ["best practice", "recommendation", "practice", "should", "recommend"]) ]

/-- The indicator list of `_looks_like_solution`. -/
def SOLUTION_INDICATORS : List String :=
  ["try", "use", "do", "change", "set", "install", "add", "remove", "update",
   "check", "verify", "ensure", "configure", "implement", "call", "run", "execute"]

/-- `SolutionExtractorV2._identify_solution_type`: the first keyword
category with a match, in table order. -/
def identifySolutionType (text : String) : Option String :=
  (SOLUTION_KEYWORDS.find? (fun p => p.2.any (fun kw => isSub kw (lowerStr text)))).map Prod.fst

/-- `SolutionExtractorV2._looks_like_solution`. -/
def looksLikeSolution (text : String) : Bool :=
  SOLUTION_INDICATORS.any (fun ind => isSub ind (lowerStr text))

/-- A Solution record, modelled as its literal key/value list so that
the set of keys is part of the model. -/
def Solution : Type := List (String × PyVal)

/-- `SolutionExtractorV2._extract_from_text`. -/
def extractFromText (text source : String) (post_id post_url : Option String)
    (upvotes : Int) : List (List (String × PyVal)) :=
  if text = "" ∨ (sTrim text).length < 20 then []
  else if (identifySolutionType text).isSome || looksLikeSolution text then
    [[("text", PyVal.vStr text), ("source", PyVal.vStr source),
      ("post_id", optStrVal post_id), ("post_url", optStrVal post_url),
      ("upvotes", PyVal.vInt upvotes),
      ("solution_type", PyVal.vStr ((identifySolutionType text).getD "general_solution"))]]
  else []

/-- The question dict of a conversation, as read through `.get`. -/
structure SEQuestion where
  text : Option String
  post_id : Option String
  post_url : Option String
  upvotes : Option Int
deriving DecidableEq

/-- A comment dict of a conversation. -/
structure SEComment where
  text : Option String
  post_id : Option String
  post_url : Option String
  upvotes : Option Int
deriving DecidableEq

/-- A conversation as consumed by `extract_solutions`. -/
structure SEConversation where
  question : Option SEQuestion
  comments : Option (List SEComment)
deriving DecidableEq

/-- The empty-dict fallback used when a conversation has no question key. -/
def emptyQuestion : SEQuestion := ⟨none, none, none, none⟩

/-- `x.get(k, fallback)` for optional string fields. -/
def optOr (a b : Option String) : Option String :=
  match a with
  | some x => some x
  | none => b

/-- `SolutionExtractorV2.extract_solutions`. -/
def extractSolutions (conv : SEConversation) : List (List (String × PyVal)) :=
  let question := conv.question.getD emptyQuestion
  let fromQuestion :=
    match question.text with
    | some t =>
      if t = "" then []
      else extractFromText t "question" question.post_id question.post_url
        (question.upvotes.getD 0)
    | none => []
  let fromComments :=
    ((conv.comments.getD []).map (fun c =>
      extractFromText (c.text.getD "") "comment" (optOr c.post_id question.post_id)
        (optOr c.post_url question.post_url) (c.upvotes.getD 0))).flatten
  fromQuestion ++ fromComments

/-! ### span_extractor.py — PainSpanExtractor -/

/-- `PainSpanExtractor.PAIN_KEYWORDS`. -/
def PAIN_KEYWORDS : List (String × List String) :=
  [ ("error", ["error", "exception", "fail", "crash", "bug", "issue", "problem", "broken"]),
    ("performance", ["slow", "lag", "timeout", "hang", "freeze", "performance", "latency", "throughput"]),
    ("usability", ["confusing", "unclear", "hard", "difficult", "complex", "complicated", "unintuitive"]),
    ("compatibility", ["incompatible", "not working", "doesn\x27t work", "conflict", "compatibility"]),
    ("cost", ["expensive", "costly", "price", "billing", "overcharge", "fee", "subscription"]) ]

/-- `PainSpanExtractor.PROMOTIONAL_TERMS`. -/
def PROMOTIONAL_TERMS : List String :=
  ["love", "amazing", "great", "awesome", "wonderful", "excellent", "perfect"]

/-- `PainSpanExtractor._is_promotional`, including the redundant inner
re-check of the same term list present in the source. -/
def isPromotional (sentence : String) : Bool :=
  PROMOTIONAL_TERMS.any (fun term =>
    isSub term (lowerStr sentence) &&
      PROMOTIONAL_TERMS.any (fun t2 => isSub t2 (lowerStr sentence)))

/-- Whether the sentence contains a promotional term at all (the
condition the claims speak about). -/
def containsPromoTerm (sentence : String) : Bool :=
  PROMOTIONAL_TERMS.any (fun term => isSub term (lowerStr sentence))

/-- `PainSpanExtractor._has_pain_keyword`. -/
def hasPainKeyword (sentence : String) : Bool :=
  PAIN_KEYWORDS.any (fun p => p.2.any (fun kw => isSub kw (lowerStr sentence)))

/-- `PainSpanExtractor._find_pain_keywords`: all matching keywords, in
table order, without duplicates. -/
def findPainKeywords (sentence : String) : List String :=
  PAIN_KEYWORDS.foldl (fun found p =>
    p.2.foldl (fun acc kw =>
      if isSub kw (lowerStr sentence) && !(acc.contains kw) then acc ++ [kw] else acc)
      found) []

/-- `PainSpanExtractor._calculate_confidence`. -/
def calcConfidence (sentence : String) (painKws : List String) : ℚ :=
  if wordCount sentence = 0 then 0
  else round3 (min (qDiv (painKws.length : ℚ) (qDiv (wordCount sentence : ℚ) 10)) 1)

/-- Configuration of `PainSpanExtractor` (defaults 200 / 3 / 5). -/
structure SpanConfig where
  max_span_length : Nat
  max_spans_per_question : Nat
  min_span_words : Nat

/-- The defaults of `PainSpanExtractor.__init__`. -/
def defaultSpanConfig : SpanConfig := ⟨200, 3, 5⟩

/-- A question record as read by `extract_spans`. -/
structure SpanQuestion where
  text : Option String
  sentiment : Option String
  post_id : Option String
  post_url : Option String
deriving DecidableEq

/-- A pain span as appended by `extract_spans`. -/
structure PainSpan where
  text : String
  sentence : String
  pain_keywords : List String
  confidence : ℚ
  post_id : Option String
  post_url : Option String
deriving DecidableEq

/-- Sentence delimiters of the regex split on runs of the three
sentence-ending punctuation marks. -/
def isSentenceDelim (c : Char) : Bool := c == '.' || c == '!' || c == '?'

/-- Sentence segmentation.  Splitting at each single delimiter differs
from the split on delimiter runs in the source only by extra empty pieces,
which the extraction loop discards. -/
def splitSentences (text : String) : List String :=
  (splitChars isSentenceDelim text.toList).map String.mk

/-- The Python endswith check for a trailing question mark. -/
def endsWithQuestionMark (s : String) : Bool := s.toList.getLast? == some '?'

/-- The span record appended for an accepted sentence. -/
def mkPainSpan (cfg : SpanConfig) (q : SpanQuestion) (sentence : String) : PainSpan :=
  { text := String.mk (sentence.toList.take cfg.max_span_length)
    sentence := sentence
    pain_keywords := findPainKeywords sentence
    confidence := calcConfidence sentence (findPainKeywords sentence)
    post_id := q.post_id
    post_url := q.post_url }

/-- The sentence loop of `extract_spans`, with its guards and the early
break at `max_spans_per_question`. -/
def spansLoop (cfg : SpanConfig) (q : SpanQuestion) :
    List String → List PainSpan → List PainSpan
  | [], spans => spans
  | raw :: rest, spans =>
    if sTrim raw = "" then spansLoop cfg q rest spans
    else if wordCount (sTrim raw) < cfg.min_span_words then spansLoop cfg q rest spans
    else if isPromotional (sTrim raw) then spansLoop cfg q rest spans
    else if endsWithQuestionMark (sTrim raw) && !hasPainKeyword (sTrim raw) then
      spansLoop cfg q rest spans
    else if (findPainKeywords (sTrim raw)).isEmpty then spansLoop cfg q rest spans
    else if cfg.max_spans_per_question ≤ (spans ++ [mkPainSpan cfg q (sTrim raw)]).length then
      spans ++ [mkPainSpan cfg q (sTrim raw)]
    else spansLoop cfg q rest (spans ++ [mkPainSpan cfg q (sTrim raw)])

/-- `PainSpanExtractor.extract_spans`. -/
def extractSpans (cfg : SpanConfig) (q : SpanQuestion) : List PainSpan :=
  if !(["negative", "neutral"].contains (q.sentiment.getD "neutral")) then []
  else spansLoop cfg q (splitSentences (q.text.getD "")) []

/-!
## Helper lemmas

First the bridges from the executable rational helpers to the Mathlib
field operations, then general facts about the selection loop, the
filter, the span loop and the solution extractor, shared by the claim
theorems below.
-/

theorem num_mul_den (a : ℚ) : (a.num : ℚ) = a * (a.den : ℚ) := by
  have hden : ((a.den : ℚ)) ≠ 0 := by positivity
  exact (div_eq_iff hden).mp (Rat.num_div_den a)

theorem qAdd_eq (a b : ℚ) : qAdd a b = a + b := by
  have had : ((a.den : ℚ)) ≠ 0 := by positivity
  have hbd : ((b.den : ℚ)) ≠ 0 := by positivity
  unfold qAdd
  rw [Rat.divInt_eq_div]
  push_cast
  rw [div_eq_iff (mul_ne_zero had hbd), num_mul_den a, num_mul_den b]
  ring

theorem qMul_eq (a b : ℚ) : qMul a b = a * b := by
  have had : ((a.den : ℚ)) ≠ 0 := by positivity
  have hbd : ((b.den : ℚ)) ≠ 0 := by positivity
  unfold qMul
  rw [Rat.divInt_eq_div]
  push_cast
  rw [div_eq_iff (mul_ne_zero had hbd), num_mul_den a, num_mul_den b]
  ring

theorem qDiv_eq (a b : ℚ) : qDiv a b = a / b := by
  unfold qDiv
  rcases eq_or_ne b 0 with hb | hb
  · subst hb; simp
  · have hbn : (b.num : ℚ) ≠ 0 := by
      exact_mod_cast Rat.num_ne_zero.mpr hb
    have had : (a.den : ℚ) ≠ 0 := by positivity
    rw [Rat.divInt_eq_div]
    push_cast
    rw [div_eq_div_iff (mul_ne_zero had hbn) hb, num_mul_den a, num_mul_den b]
    ring

theorem qRound_eq (q : ℚ) : qRound q = round q := by
  unfold qRound
  rw [qAdd_eq, round_eq]
  norm_num [Rat.mkRat_eq_div]

theorem pickAux_snd_le (score : String → ℚ) :
    ∀ (l : List String) (b : Option String) (bs : ℚ), bs ≤ (pickAux score b bs l).2 := by
  intro l
  induction l with
  | nil => intro b bs; exact le_refl _
  | cons x xs ih =>
    intro b bs
    simp only [pickAux]
    split
    · exact le_trans (le_of_lt (by assumption)) (ih _ _)
    · exact ih _ _

theorem pickAux_le_snd (score : String → ℚ) :
    ∀ (l : List String) (b : Option String) (bs : ℚ) (x : String),
      x ∈ l → score x ≤ (pickAux score b bs l).2 := by
  intro l
  induction l with
  | nil => intro b bs x hx; cases hx
  | cons y ys ih =>
    intro b bs x hx
    simp only [pickAux]
    rcases List.mem_cons.mp hx with hxy | hmem
    · subst hxy
      split
      · exact pickAux_snd_le score ys _ _
      · exact le_trans (not_lt.mp (by assumption)) (pickAux_snd_le score ys _ _)
    · split
      · exact ih _ _ _ hmem
      · exact ih _ _ _ hmem

theorem pickAux_stable (score : String → ℚ) :
    ∀ (l : List String) (b : Option String) (bs : ℚ),
      ¬ bs < (pickAux score b bs l).2 → pickAux score b bs l = (b, bs) := by
  intro l
  induction l with
  | nil => intro b bs _; rfl
  | cons x xs ih =>
    intro b bs h
    simp only [pickAux] at h ⊢
    by_cases hx : bs < score x
    · rw [if_pos hx] at h
      exact absurd (lt_of_lt_of_le hx (pickAux_snd_le score xs _ _)) h
    · rw [if_neg hx] at h ⊢
      exact ih _ _ h

theorem pickAux_find (score : String → ℚ) :
    ∀ (l : List String) (b : Option String) (bs : ℚ),
      bs < (pickAux score b bs l).2 →
      (pickAux score b bs l).1 =
        l.find? (fun x => decide ((pickAux score b bs l).2 ≤ score x)) := by
  intro l
  induction l with
  | nil => intro b bs h; exact absurd h (lt_irrefl bs)
  | cons x xs ih =>
    intro b bs h
    simp only [pickAux] at h ⊢
    by_cases hx : bs < score x
    · rw [if_pos hx] at h
      simp only [if_pos hx]
      by_cases hx2 : score x < (pickAux score (some x) (score x) xs).2
      · have h1 := ih (some x) (score x) hx2
        rw [List.find?_cons_of_neg _ (by simp [not_le.mpr hx2])]
        exact h1
      · have hr := pickAux_stable score xs (some x) (score x) hx2
        simp only [hr]
        rw [List.find?_cons_of_pos _ (by simp)]
    · rw [if_neg hx] at h
      simp only [if_neg hx]
      have h1 := ih b bs h
      have hxbs : score x ≤ bs := not_lt.mp hx
      rw [List.find?_cons_of_neg _ (by simp [not_le.mpr (lt_of_le_of_lt hxbs h)])]
      exact h1

/-- If the classifier selection over candidates `l` (with initial best
`none` at score `0`) produced some winner, the winner is a candidate,
its score is the selected best score, and that best score is positive. -/
theorem pick_some_score (score : String → ℚ) (l : List String) (s : String)
    (h : (pickAux score none 0 l).1 = some s) :
    s ∈ l ∧ score s = (pickAux score none 0 l).2 ∧ 0 < (pickAux score none 0 l).2 := by
  by_cases h0 : 0 < (pickAux score none 0 l).2
  · have hf := pickAux_find score l none 0 h0
    rw [hf] at h
    have hmem := List.mem_of_find?_eq_some h
    have hpred := List.find?_some h
    have hle := pickAux_le_snd score l none 0 s hmem
    exact ⟨hmem, le_antisymm hle (of_decide_eq_true hpred), h0⟩
  · have hst := pickAux_stable score l none 0 h0
    rw [hst] at h
    exact absurd h (by simp)

/-- If a stage confidence `m / len` (with at least 6 keywords) clears
the default threshold `0.4`, at least two keywords matched. -/
theorem matched_ge_two_of_score (m len : ℕ) (h6 : 6 ≤ len)
    (h : mkRat 2 5 ≤ qDiv (m : ℚ) (len : ℚ)) : 2 ≤ m := by
  rw [qDiv_eq, Rat.mkRat_eq_div] at h
  push_cast at h
  have hlen0 : (0:ℚ) < (len : ℚ) := by
    have : 0 < len := lt_of_lt_of_le (by norm_num) h6
    exact_mod_cast this
  rw [div_le_div_iff (by norm_num) hlen0] at h
  have hn : 2 * len ≤ m * 5 := by exact_mod_cast h
  omega

/-!
## Claim theorems
-/

/-- C1, counterexample: the journey-stage classifier does not zero out
categories with fewer than 2 keyword matches.  On the text `"ship"` the
stage `shipping` matches a single keyword, yet its computed confidence
is `1/7`, not `0.0`. -/
theorem c1_counterexample :
    matchedCount "ship" ((STAGE_KEYWORDS.lookup "shipping").getD []) = 1 ∧
    jsScore "ship" "shipping" = mkRat 1 7 ∧ jsScore "ship" "shipping" ≠ 0 := by decide

/-- C1 (amended): the product-area classifier gives confidence `0.0` to
any category with fewer than 2 keyword matches and never returns such a
category (for any threshold); the journey-stage classifier computes
per-stage confidence `matched / total` with no minimum-match gate, but
under the default threshold `0.4` it never returns a stage whose text
matched fewer than 2 of its keywords. -/
theorem c1_amended :
    (∀ text area, matchedCount text ((PRODUCT_AREA_KEYWORDS.lookup area).getD []) < 2 →
      paScore text area = 0) ∧
    (∀ minConf text area c, paClassify minConf text = (some area, c) →
      2 ≤ matchedCount text ((PRODUCT_AREA_KEYWORDS.lookup area).getD [])) ∧
    (∀ text stage c, jsClassify jsDefaultMinConfidence text = (some stage, c) →
      2 ≤ matchedCount text ((STAGE_KEYWORDS.lookup stage).getD [])) := by
  refine ⟨?_, ?_, ?_⟩
  · intro text area h
    unfold paScore
    split
    · rename_i kws hl
      rw [hl, Option.getD_some] at h
      rw [if_pos h]
    · rfl
  · intro minConf text area c h
    simp only [paClassify] at h
    split at h
    · simp at h
    · injection h with h1 h2
      obtain ⟨hmem, hsc, hpos⟩ := pick_some_score _ _ _ h1
      rw [← hsc] at hpos
      unfold paScore at hpos
      split at hpos
      · rename_i kws hl
        rw [hl, Option.getD_some]
        by_cases hm : matchedCount text kws < 2
        · rw [if_pos hm] at hpos
          exact absurd hpos (lt_irrefl 0)
        · omega
      · exact absurd hpos (lt_irrefl 0)
  · intro text stage c h
    simp only [jsClassify] at h
    split at h
    · simp at h
    · rename_i hth
      injection h with h1 h2
      obtain ⟨hmem, hsc, hpos⟩ := pick_some_score _ _ _ h1
      have hge : jsDefaultMinConfidence ≤ jsScore text stage := by
        rw [hsc]; exact not_lt.mp hth
      fin_cases hmem <;> exact matched_ge_two_of_score _ _ (by decide) hge

/-- C1 witness: concrete classifications exercising each conjunct of the
amended claim. -/
theorem c1_amended_witness :
    paScore "ship it now" "deployment" = 0 ∧
    2 ≤ matchedCount "the deploy to production failed"
        ((PRODUCT_AREA_KEYWORDS.lookup "deployment").getD []) ∧
    2 ≤ matchedCount "scale growth debug fix issue"
        ((STAGE_KEYWORDS.lookup "scaling").getD []) :=
  ⟨c1_amended.1 "ship it now" "deployment" (by decide),
   c1_amended.2.1 paDefaultMinConfidence "the deploy to production failed" "deployment"
     (mkRat 333 1000) (by decide),
   c1_amended.2.2 "scale growth debug fix issue" "scaling" (mkRat 1 2) (by decide)⟩

/-- C2 (code bug): on `labels = [0, 0, 0, 1]` the silhouette guard of
`ClusterQualityMetrics.compute` passes (4 non-noise points, 2 distinct
clusters) and the library call is defined, so a silhouette score is
computed and stored — yet only one cluster has at least 2 members, so
the claim (and the comment in the code itself, which demands at least 2 clusters
with 2 points each) says the score must be `None`. -/
theorem c2_code_bug :
    silhouetteComputed [0, 0, 0, 1] = true ∧
    clustersWithAtLeastTwo [0, 0, 0, 1] = 1 := by decide

/-- C6, counterexample: on the text `"scale issue"` the stages `scaling`
and `troubleshooting` tie at the maximal nonzero confidence `1/6`, yet
`classify` returns no stage at all (the tied maximum is below the `0.4`
threshold) instead of the priority-first tied stage. -/
theorem c6_counterexample :
    jsScore "scale issue" "scaling" = mkRat 1 6 ∧
    jsScore "scale issue" "troubleshooting" = mkRat 1 6 ∧
    (mkRat 1 6 : ℚ) ≠ 0 ∧
    (∀ s ∈ STAGE_PRIORITY, jsScore "scale issue" s ≤ mkRat 1 6) ∧
    (jsClassify jsDefaultMinConfidence "scale issue").1 = none := by decide

/-- C6 (amended): whenever two or more journey stages attain the same
maximal confidence and that maximum clears the default threshold `0.4`,
`classify` returns the stage that comes first in `STAGE_PRIORITY` among
those attaining the maximum (the `find?` of the first stage whose score
reaches the selected best score); ties are resolved by the fixed
priority list, not by keyword-table order, since scores enter the
selection only through the function `jsScore text`. -/
theorem c6_amended (text s1 s2 : String) (h1 : s1 ∈ STAGE_PRIORITY)
    (h2 : s2 ∈ STAGE_PRIORITY) (hne : s1 ≠ s2)
    (hs1 : jsScore text s1 = (pickAux (jsScore text) none 0 STAGE_PRIORITY).2)
    (hs2 : jsScore text s2 = (pickAux (jsScore text) none 0 STAGE_PRIORITY).2)
    (hth : jsDefaultMinConfidence ≤ (pickAux (jsScore text) none 0 STAGE_PRIORITY).2) :
    (jsClassify jsDefaultMinConfidence text).1 =
      STAGE_PRIORITY.find? (fun s =>
        decide ((pickAux (jsScore text) none 0 STAGE_PRIORITY).2 ≤ jsScore text s)) := by
  have h0 : (0:ℚ) < (pickAux (jsScore text) none 0 STAGE_PRIORITY).2 :=
    lt_of_lt_of_le (by decide) hth
  have hf := pickAux_find (jsScore text) STAGE_PRIORITY none 0 h0
  simp only [jsClassify]
  rw [if_neg (not_lt.mpr hth)]
  exact hf

/-- C6 witness: on a text where `scaling` and `troubleshooting` tie at
confidence `1/2 ≥ 0.4`, classify picks `scaling`, the higher-priority
stage. -/
theorem c6_amended_witness :
    (jsClassify jsDefaultMinConfidence "scale growth debug fix issue").1 =
      STAGE_PRIORITY.find? (fun s =>
        decide ((pickAux (jsScore "scale growth debug fix issue") none 0 STAGE_PRIORITY).2
          ≤ jsScore "scale growth debug fix issue" s)) ∧
    (jsClassify jsDefaultMinConfidence "scale growth debug fix issue").1 = some "scaling" :=
  ⟨c6_amended "scale growth debug fix issue" "scaling" "troubleshooting"
    (by decide) (by decide) (by decide) (by decide) (by decide) (by decide),
   by decide⟩

/-- C3, counterexample: a record failing the upvote filter is evaluated
by `filter_objects` but left without any `_filter_metadata` annotation,
and is dropped from the output — contradicting the claim that every
evaluated record is annotated. -/
theorem c3_counterexample :
    postState defaultFilterConfig [⟨some 0, some "", none, none, none⟩]
      = [⟨some 0, some "", none, none, none⟩] ∧
    (⟨some 0, some "", none, none, none⟩ : QARecord).meta = none ∧
    filterObjects defaultFilterConfig [⟨some 0, some "", none, none, none⟩] = [] := by decide

/-- C3 (amended): only records passing all filters are annotated with
the per-filter pass/fail metadata map; records failing any filter are
left unannotated (their metadata field is unchanged) and excluded, and
the returned list is exactly the passing records, each carrying the map. -/
theorem c3_amended (cfg : FilterConfig) (objs : List QARecord) :
    (∀ obj : QARecord, (annotateRecord cfg obj).meta =
      if (evalMeta cfg obj).passed_all then some (evalMeta cfg obj) else obj.meta) ∧
    filterObjects cfg objs =
      (objs.filter (fun o => (evalMeta cfg o).passed_all)).map (withMeta cfg) := by
  constructor
  · intro obj
    by_cases hp : (evalMeta cfg obj).passed_all
    · simp [annotateRecord, withMeta, hp]
    · simp [annotateRecord, hp]
  · induction objs with
    | nil => rfl
    | cons o os ih =>
      by_cases hp : (evalMeta cfg o).passed_all
      · simp [filterObjects, List.filter_cons, hp, ih]
      · simp [filterObjects, List.filter_cons, hp, ih]

/-- C7: the filter output is a sublist of the (evaluated) input list,
every returned record carries metadata with `passed_all = true`, and
absent fields are evaluated exactly as the defaults 0 upvotes, empty
text, neutral sentiment and Question category, so no input shape is
rejected with an error. -/
theorem c7_filter (cfg : FilterConfig) (objs : List QARecord) :
    (filterObjects cfg objs).Sublist (postState cfg objs) ∧
    (∀ r ∈ filterObjects cfg objs, ∃ m, r.meta = some m ∧ m.passed_all = true) ∧
    evalMeta cfg ⟨none, none, none, none, none⟩ =
      evalMeta cfg ⟨some 0, some "", some "neutral", some "Question", none⟩ := by
  refine ⟨?_, ?_, rfl⟩
  · induction objs with
    | nil => exact List.Sublist.refl _
    | cons o os ih =>
      simp only [filterObjects, postState, List.map_cons]
      by_cases hp : (evalMeta cfg o).passed_all
      · rw [if_pos hp, show annotateRecord cfg o = withMeta cfg o from by
          simp [annotateRecord, hp]]
        exact List.Sublist.cons₂ _ ih
      · rw [if_neg hp]
        exact List.Sublist.cons _ ih
  · induction objs with
    | nil => intro r hr; simp [filterObjects] at hr
    | cons o os ih =>
      intro r hr
      simp only [filterObjects] at hr
      by_cases hp : (evalMeta cfg o).passed_all
      · rw [if_pos hp] at hr
        rcases List.mem_cons.mp hr with h | h
        · subst h; exact ⟨evalMeta cfg o, rfl, hp⟩
        · exact ih r h
      · rw [if_neg hp] at hr
        exact ih r hr

/-- C7 witness: a fully populated record passes the default filters and
comes out annotated with `passed_all = true`. -/
theorem c7_filter_witness :
    ∃ m, (withMeta defaultFilterConfig
      ⟨some 10, some "one two three four five six seven eight nine ten",
        some "negative", some "Question", none⟩).meta = some m ∧ m.passed_all = true :=
  (c7_filter defaultFilterConfig
    [⟨some 10, some "one two three four five six seven eight nine ten",
      some "negative", some "Question", none⟩]).2.1 _ (by decide)

/-- C4: for a non-empty evidence list whose spans all carry a numeric
confidence, the severity of the generated card is `high` exactly when
`evidence_count ≥ 5` and the mean confidence exceeds `0.6`; otherwise
`medium` exactly when `evidence_count ≥ 3` or the mean exceeds `0.5`;
otherwise `low`. -/
theorem c4_severity (label : String) (spans : List EvSpan)
    (pa js : Option String) (hne : spans ≠ [])
    (hconf : ∀ s ∈ spans, s.confidence.isSome) :
    ((generateInsightCard label spans pa js).severity = "high" ↔
      (5 ≤ (generateInsightCard label spans pa js).evidence_count ∧
        mkRat 3 5 < avgConfidence spans)) ∧
    ((generateInsightCard label spans pa js).severity = "medium" ↔
      (¬(5 ≤ (generateInsightCard label spans pa js).evidence_count ∧
          mkRat 3 5 < avgConfidence spans) ∧
        (3 ≤ (generateInsightCard label spans pa js).evidence_count ∨
          mkRat 1 2 < avgConfidence spans))) ∧
    ((generateInsightCard label spans pa js).severity = "low" ↔
      (¬(5 ≤ (generateInsightCard label spans pa js).evidence_count ∧
          mkRat 3 5 < avgConfidence spans) ∧
        ¬(3 ≤ (generateInsightCard label spans pa js).evidence_count ∨
          mkRat 1 2 < avgConfidence spans))) := by
  have hemp : spans.isEmpty = false := by
    cases spans with
    | nil => exact absurd rfl hne
    | cons a l => rfl
  simp only [generateInsightCard, calcSeverity, hemp, Bool.false_eq_true, if_false]
  by_cases hA : 5 ≤ spans.length ∧ mkRat 3 5 < avgConfidence spans
  · simp [hA]
  · by_cases hB : 3 ≤ spans.length ∨ mkRat 1 2 < avgConfidence spans
    · simp [hA, hB]
    · simp [hA, hB]

/-- C4 witness: 6 spans at confidence `0.7` give severity `high`; 2
spans at confidence `0.3` give severity `low` (the two scenarios of the
specification). -/
theorem c4_severity_witness :
    (generateInsightCard "setup pain"
      (List.replicate 6 ⟨none, some (mkRat 7 10)⟩) none none).severity = "high" ∧
    (generateInsightCard "setup pain"
      (List.replicate 2 ⟨none, some (mkRat 3 10)⟩) none none).severity = "low" :=
  ⟨((c4_severity "setup pain" (List.replicate 6 ⟨none, some (mkRat 7 10)⟩) none none
      (by decide) (by decide)).1).mpr (by decide),
   ((c4_severity "setup pain" (List.replicate 2 ⟨none, some (mkRat 3 10)⟩) none none
      (by decide) (by decide)).2.2).mpr (by decide)⟩

/-- C5: the legacy adapter maps every insight card to a pain point whose
`pain_point` is the label of the card, `frequency` its evidence count,
`intensity` 1/2/3 for severity low/medium/high, `sentiment_impact` the
constant `"negative"`, and `examples` the first at-most-3 evidence texts
each truncated to 100 characters. -/
theorem c5_legacy (cards : List CardRec) (card : CardRec) (lbl : String)
    (n : Int) (sev : String) (hmem : card ∈ cards) (hl : card.label = some lbl)
    (hn : card.evidence_count = some n) (hs : card.severity = some sev) :
    toLegacyPainPoint card ∈ (convertToLegacyPainPoints cards).pain_points ∧
    (toLegacyPainPoint card).pain_point = lbl ∧
    (toLegacyPainPoint card).frequency = n ∧
    (sev = "low" → (toLegacyPainPoint card).intensity = 1) ∧
    (sev = "medium" → (toLegacyPainPoint card).intensity = 2) ∧
    (sev = "high" → (toLegacyPainPoint card).intensity = 3) ∧
    (toLegacyPainPoint card).sentiment_impact = "negative" ∧
    (toLegacyPainPoint card).examples =
      ((card.evidence.getD []).take 3).map
        (fun e => String.mk ((e.text.getD "").toList.take 100)) ∧
    (toLegacyPainPoint card).examples.length ≤ 3 ∧
    (∀ e ∈ (toLegacyPainPoint card).examples, e.length ≤ 100) := by
  refine ⟨List.mem_map_of_mem _ hmem, ?_, ?_, ?_, ?_, ?_, rfl, rfl, ?_, ?_⟩
  · simp [toLegacyPainPoint, hl]
  · simp [toLegacyPainPoint, hn]
  · intro h; subst h
    simp only [toLegacyPainPoint, hs, Option.getD_some, mapSeverityToIntensity]
    decide
  · intro h; subst h
    simp only [toLegacyPainPoint, hs, Option.getD_some, mapSeverityToIntensity]
    decide
  · intro h; subst h
    simp only [toLegacyPainPoint, hs, Option.getD_some, mapSeverityToIntensity]
    decide
  · simp only [toLegacyPainPoint, extractExamples, List.length_map, List.length_take]
    exact min_le_left _ _
  · intro e he
    simp only [toLegacyPainPoint, extractExamples, List.mem_map] at he
    obtain ⟨ev, _, hev⟩ := he
    subst hev
    calc (String.mk ((ev.text.getD "").toList.take 100)).length
        = ((ev.text.getD "").toList.take 100).length := rfl
    _ ≤ 100 := by simp [List.length_take]

/-- C5 witness: a card with severity `"medium"` converts to intensity 2
(scenario D), with the other projected fields as claimed. -/
theorem c5_legacy_witness :
    (toLegacyPainPoint ⟨some "slow deploys", some 4, some "medium", none, some []⟩).intensity
      = 2 :=
  ((c5_legacy [⟨some "slow deploys", some 4, some "medium", none, some []⟩]
    ⟨some "slow deploys", some 4, some "medium", none, some []⟩
    "slow deploys" 4 "medium" (by decide) rfl rfl rfl).2.2.2.2.1) rfl

/-- Keys of any record produced by `_extract_from_text`. -/
theorem extractFromText_keys (text source : String) (pid purl : Option String)
    (uv : Int) (sol : List (String × PyVal))
    (h : sol ∈ extractFromText text source pid purl uv) :
    sol.map Prod.fst = ["text", "source", "post_id", "post_url", "upvotes", "solution_type"] := by
  unfold extractFromText at h
  split at h
  · simp at h
  · split at h
    · rw [List.mem_singleton] at h
      subst h
      rfl
    · simp at h

/-- C8: every Solution record returned by `extract_solutions` carries
exactly the keys text, source, post_id, post_url, upvotes and
solution_type; in particular no record ever carries an `effectiveness`
or `success_rate` key. -/
theorem c8_solution_keys (conv : SEConversation) (sol : List (String × PyVal))
    (h : sol ∈ extractSolutions conv) :
    sol.map Prod.fst = ["text", "source", "post_id", "post_url", "upvotes", "solution_type"] ∧
    "effectiveness" ∉ sol.map Prod.fst ∧ "success_rate" ∉ sol.map Prod.fst := by
  have hkeys : sol.map Prod.fst
      = ["text", "source", "post_id", "post_url", "upvotes", "solution_type"] := by
    simp only [extractSolutions] at h
    rcases List.mem_append.mp h with hq | hc
    · split at hq
      · split at hq
        · simp at hq
        · exact extractFromText_keys _ _ _ _ _ _ hq
      · simp at hq
    · rw [List.mem_flatten] at hc
      obtain ⟨l, hl, hsl⟩ := hc
      rw [List.mem_map] at hl
      obtain ⟨cmt, _, hfc⟩ := hl
      subst hfc
      exact extractFromText_keys _ _ _ _ _ _ hsl
  refine ⟨hkeys, ?_, ?_⟩ <;> rw [hkeys] <;> decide

/-- C8 witness: a concrete conversation yielding one solution record of
type `configuration`, whose key list is exactly the six mandated keys. -/
theorem c8_solution_keys_witness :
    ([("text", PyVal.vStr "You should configure the retry setting to avoid failures"),
      ("source", PyVal.vStr "question"), ("post_id", PyVal.vStr "p1"),
      ("post_url", PyVal.vNone), ("upvotes", PyVal.vInt 3),
      ("solution_type", PyVal.vStr "configuration")].map Prod.fst
      = ["text", "source", "post_id", "post_url", "upvotes", "solution_type"]) ∧
    "effectiveness" ∉ ([("text", PyVal.vStr "You should configure the retry setting to avoid failures"),
      ("source", PyVal.vStr "question"), ("post_id", PyVal.vStr "p1"),
      ("post_url", PyVal.vNone), ("upvotes", PyVal.vInt 3),
      ("solution_type", PyVal.vStr "configuration")].map Prod.fst) ∧
    "success_rate" ∉ ([("text", PyVal.vStr "You should configure the retry setting to avoid failures"),
      ("source", PyVal.vStr "question"), ("post_id", PyVal.vStr "p1"),
      ("post_url", PyVal.vNone), ("upvotes", PyVal.vInt 3),
      ("solution_type", PyVal.vStr "configuration")].map Prod.fst) :=
  c8_solution_keys
    ⟨some ⟨some "You should configure the retry setting to avoid failures",
      some "p1", none, some 3⟩, none⟩ _ (by decide)

/-- Every span the sentence loop appends comes from a sentence that
survived its guards (not promotional, with at least one pain keyword). -/
theorem spansLoop_mem (cfg : SpanConfig) (q : SpanQuestion) :
    ∀ (sents : List String) (acc : List PainSpan) (sp : PainSpan),
      sp ∈ spansLoop cfg q sents acc →
      sp ∈ acc ∨ ∃ sentence, isPromotional sentence = false ∧
        (findPainKeywords sentence).isEmpty = false ∧ sp = mkPainSpan cfg q sentence := by
  intro sents
  induction sents with
  | nil => intro acc sp h; exact Or.inl h
  | cons raw rest ih =>
    intro acc sp h
    simp only [spansLoop] at h
    by_cases h1 : sTrim raw = ""
    · rw [if_pos h1] at h; exact ih acc sp h
    rw [if_neg h1] at h
    by_cases h2 : wordCount (sTrim raw) < cfg.min_span_words
    · rw [if_pos h2] at h; exact ih acc sp h
    rw [if_neg h2] at h
    by_cases h3 : isPromotional (sTrim raw) = true
    · rw [if_pos h3] at h; exact ih acc sp h
    rw [if_neg h3] at h
    by_cases h4 : (endsWithQuestionMark (sTrim raw) && !hasPainKeyword (sTrim raw)) = true
    · rw [if_pos h4] at h; exact ih acc sp h
    rw [if_neg h4] at h
    by_cases h5 : (findPainKeywords (sTrim raw)).isEmpty = true
    · rw [if_pos h5] at h; exact ih acc sp h
    rw [if_neg h5] at h
    by_cases h6 : cfg.max_spans_per_question ≤ (acc ++ [mkPainSpan cfg q (sTrim raw)]).length
    · rw [if_pos h6] at h
      rcases List.mem_append.mp h with ha | hb
      · exact Or.inl ha
      · rw [List.mem_singleton] at hb
        exact Or.inr ⟨sTrim raw, Bool.eq_false_iff.mpr h3, Bool.eq_false_iff.mpr h5, hb⟩
    · rw [if_neg h6] at h
      rcases ih _ sp h with hacc | hex
      · rcases List.mem_append.mp hacc with ha | hb
        · exact Or.inl ha
        · rw [List.mem_singleton] at hb
          exact Or.inr ⟨sTrim raw, Bool.eq_false_iff.mpr h3, Bool.eq_false_iff.mpr h5, hb⟩
      · exact hex.elim (fun sentence hx => Or.inr ⟨sentence, hx⟩)

/-- Rounding to three decimals keeps a value of `[0, 1]` inside `[0, 1]`. -/
theorem round3_mem_unit (x : ℚ) (h0 : 0 ≤ x) (h1 : x ≤ 1) :
    0 ≤ round3 x ∧ round3 x ≤ 1 := by
  unfold round3
  rw [qRound_eq, qMul_eq, Rat.divInt_eq_div]
  have key : 0 ≤ round ((1000:ℚ) * x) ∧ round ((1000:ℚ) * x) ≤ 1000 := by
    rw [round_eq]
    refine ⟨Int.le_floor.mpr (by push_cast; linarith), ?_⟩
    have hlt : ⌊(1000:ℚ) * x + 1/2⌋ < 1001 := Int.floor_lt.mpr (by push_cast; linarith)
    omega
  constructor
  · exact div_nonneg (by exact_mod_cast key.1) (by norm_num)
  · rw [div_le_one (by norm_num)]
    exact_mod_cast key.2

/-- The computed span confidence always lies in `[0, 1]`. -/
theorem calcConfidence_bounds (sentence : String) (kws : List String) :
    0 ≤ calcConfidence sentence kws ∧ calcConfidence sentence kws ≤ 1 := by
  unfold calcConfidence
  split
  · norm_num
  · apply round3_mem_unit
    · apply le_min
      · rw [qDiv_eq, qDiv_eq]
        positivity
      · norm_num
    · exact min_le_right _ _

theorem length_mk (l : List Char) : (String.mk l).length = l.length := rfl

/-- C9: every span produced by `extract_spans` has a confidence within
`[0, 1]` and a truncated text of at most `max_span_length` characters. -/
theorem c9_span_bounds (cfg : SpanConfig) (q : SpanQuestion) (sp : PainSpan)
    (h : sp ∈ extractSpans cfg q) :
    0 ≤ sp.confidence ∧ sp.confidence ≤ 1 ∧ sp.text.length ≤ cfg.max_span_length := by
  unfold extractSpans at h
  split at h
  · simp at h
  · rcases spansLoop_mem cfg q _ _ _ h with hacc | ⟨sentence, _, _, hsp⟩
    · simp at hacc
    · subst hsp
      refine ⟨(calcConfidence_bounds sentence (findPainKeywords sentence)).1,
        (calcConfidence_bounds sentence (findPainKeywords sentence)).2, ?_⟩
      show (String.mk (sentence.toList.take cfg.max_span_length)).length ≤ _
      rw [length_mk, List.length_take]
      exact min_le_left _ _

/-- C9 witness: a concrete negative-free question yields one span, whose
confidence and truncated length obey the bounds. -/
theorem c9_span_bounds_witness :
    0 ≤ (⟨"the error crash bug fails here", "the error crash bug fails here",
        ["error", "fail", "crash", "bug"], 1, none, none⟩ : PainSpan).confidence ∧
      (⟨"the error crash bug fails here", "the error crash bug fails here",
        ["error", "fail", "crash", "bug"], 1, none, none⟩ : PainSpan).confidence ≤ 1 ∧
      (⟨"the error crash bug fails here", "the error crash bug fails here",
        ["error", "fail", "crash", "bug"], 1, none, none⟩ : PainSpan).text.length
        ≤ defaultSpanConfig.max_span_length :=
  c9_span_bounds defaultSpanConfig
    ⟨some "the error crash bug fails here", some "neutral", none, none⟩ _ (by decide)

/-- The promotional check is equivalent to plain promotional-term
containment: the nested `any` in the source re-checks the same list. -/
theorem isPromotional_eq (s : String) : isPromotional s = containsPromoTerm s := by
  unfold isPromotional containsPromoTerm
  cases hc : PROMOTIONAL_TERMS.any (fun term => isSub term (lowerStr s)) with
  | true => simp only [hc, Bool.and_true]
  | false =>
    simp only [hc, Bool.and_false]
    decide

/-- C10: a sentence containing any promotional term never yields a span:
every span returned by `extract_spans` has a promotional-term-free
sentence, pain keywords or not. -/
theorem c10_no_promo (cfg : SpanConfig) (q : SpanQuestion) (sp : PainSpan)
    (h : sp ∈ extractSpans cfg q) :
    containsPromoTerm sp.sentence = false := by
  unfold extractSpans at h
  split at h
  · simp at h
  · rcases spansLoop_mem cfg q _ _ _ h with hacc | ⟨sentence, hpromo, _, hsp⟩
    · simp at hacc
    · subst hsp
      rw [show (mkPainSpan cfg q sentence).sentence = sentence from rfl, ← isPromotional_eq]
      exact hpromo

/-- C10 witness: a question whose first sentence mixes promotional terms
with pain keywords yields only the span of its second, promotion-free
sentence. -/
theorem c10_no_promo_witness :
    containsPromoTerm (⟨"The deploy fails with a timeout error always",
      "The deploy fails with a timeout error always", ["error", "fail", "timeout"],
      1, none, none⟩ : PainSpan).sentence = false ∧
    containsPromoTerm "I love this great tool but it crashes with error" = true ∧
    hasPainKeyword "I love this great tool but it crashes with error" = true :=
  ⟨c10_no_promo defaultSpanConfig
    ⟨some "I love this great tool but it crashes with error. The deploy fails with a timeout error always.",
      some "negative", none, none⟩ _ (by decide),
   by decide, by decide⟩

end PMTools
